import Mathlib

/-!
Verification of the RSI cycle analyzer (`src/app.py`).

The core pipeline of the program is embedded below as pure Lean functions:
prices and RSI values are exact rationals (`ℚ`), and pandas `NaN` entries are
embedded as `none` in an `Option ℚ`.  Every IEEE comparison against `NaN` in
the source is false, which the `Option`-matching cases below reproduce
explicitly.  Python list indices appearing here are natural numbers; every
subtraction performed on them is applied, in the claims considered, only where
the result is nonnegative, so `ℕ` truncated subtraction agrees with Python's
integer subtraction.
-/

namespace RsiApp

/-- One row of the downloaded OHLC frame (columns `Open`, `High`, `Low`, `Close`). -/
structure PriceBar where
  Open : ℚ
  High : ℚ
  Low : ℚ
  Close : ℚ
deriving DecidableEq, Inhabited

/-- Embedding of `prices.diff()`: pandas `NaN` (`none`) at position 0, else the bar-to-bar delta. -/
def diff (prices : List ℚ) : List (Option ℚ) :=
  (List.range prices.length).map fun i =>
    if i = 0 then none else some (prices.getD i 0 - prices.getD (i - 1) 0)

/-- Embedding of `delta.where(delta > 0, 0)`: keep positive deltas, otherwise 0.  The `NaN`
at position 0 compares false against 0 and is therefore also replaced by 0. -/
def gainList (prices : List ℚ) : List ℚ :=
  (diff prices).map fun d =>
    match d with
    | some x => if 0 < x then x else 0
    | none => 0

/-- Embedding of `-delta.where(delta < 0, 0)`: magnitude of negative deltas, otherwise 0. -/
def lossList (prices : List ℚ) : List ℚ :=
  (diff prices).map fun d =>
    match d with
    | some x => if x < 0 then -x else 0
    | none => 0

/-- Embedding of `.rolling(window=w).mean()` at position `i`: `NaN` (`none`) until `w`
observations are available, then the arithmetic mean of positions `i-w+1 .. i`. -/
def rollingMeanAt (xs : List ℚ) (w i : ℕ) : Option ℚ :=
  if i + 1 < w then none
  else some ((((xs.drop (i + 1 - w)).take w).sum) / (w : ℚ))

/-- Embedding of `.rolling(window=w).mean()` over the whole series. -/
def rollingMean (xs : List ℚ) (w : ℕ) : List (Option ℚ) :=
  (List.range xs.length).map (rollingMeanAt xs w)

/-- Embedding of `rs = gain / loss; rsi = 100 - (100 / (1 + rs))` at one position, with the
IEEE float special cases made explicit: `0/0` is `NaN` (undefined RSI), and
`g/0` with `g ≠ 0` is `+inf`, which saturates the formula at exactly 100. -/
def rsiAt (g l : ℚ) : Option ℚ :=
  if l = 0 then (if g = 0 then none else some 100)
  else some (100 - 100 / (1 + g / l))

/-- RSI of `calculate_rsi` at a single position: undefined while either rolling
mean is undefined. -/
def rsiStep (prices : List ℚ) (period i : ℕ) : Option ℚ :=
  match (rollingMean (gainList prices) period).getD i none,
        (rollingMean (lossList prices) period).getD i none with
  | some g, some l => rsiAt g l
  | _, _ => none

/-- Embedding of `calculate_rsi` (app.py lines 17–24). -/
def calculate_rsi (prices : List ℚ) (period : ℕ) : List (Option ℚ) :=
  (List.range prices.length).map (rsiStep prices period)

/-- The two crossing directions (`'overbought'` / `'oversold'` in app.py). -/
inductive CrossKind where
  | overbought
  | oversold
deriving DecidableEq, Inhabited

/-- One element of the `crosses` list: the tuple `(i, kind, current_rsi)`. -/
structure CrossEvent where
  index : ℕ
  kind : CrossKind
  rsiValue : ℚ
deriving DecidableEq, Inhabited

/-- Loop body of `detect_rsi_crosses` at position `i` (the `if`/`elif` at
app.py lines 32–35).  A `NaN` `prev_rsi` or `current_rsi` makes all four float
comparisons false, so the `none` cases emit nothing. -/
def crossAt (rsi_series : List (Option ℚ)) (overbought oversold : ℚ) (i : ℕ) :
    List CrossEvent :=
  match rsi_series.getD (i - 1) none, rsi_series.getD i none with
  | some prev_rsi, some current_rsi =>
    if prev_rsi ≤ overbought ∧ overbought < current_rsi then
      [⟨i, CrossKind.overbought, current_rsi⟩]
    else if oversold ≤ prev_rsi ∧ current_rsi < oversold then
      [⟨i, CrossKind.oversold, current_rsi⟩]
    else []
  | _, _ => []

/-- Embedding of `detect_rsi_crosses` (app.py lines 26–36): scan `i` from 1 to `len - 1`,
appending the events emitted at each position in scan order. -/
def detect_rsi_crosses (rsi_series : List (Option ℚ))
    (overbought oversold : ℚ) : List CrossEvent :=
  (List.range' 1 (rsi_series.length - 1)).flatMap
    (crossAt rsi_series overbought oversold)

/-- The Cross Detector rule as the specification words it, for one position:
emit the `Overbought` event iff `prev ≤ overboughtLevel ∧ curr > overboughtLevel`,
and the `Oversold` event iff `prev ≥ oversoldLevel ∧ curr < oversoldLevel`,
skipping the position when either neighbour is undefined. -/
def specCrossAt (rsi_series : List (Option ℚ)) (overbought oversold : ℚ)
    (i : ℕ) : List CrossEvent :=
  match rsi_series.getD (i - 1) none, rsi_series.getD i none with
  | some prev_rsi, some current_rsi =>
    (if prev_rsi ≤ overbought ∧ overbought < current_rsi then
       [⟨i, CrossKind.overbought, current_rsi⟩] else []) ++
    (if oversold ≤ prev_rsi ∧ current_rsi < oversold then
       [⟨i, CrossKind.oversold, current_rsi⟩] else [])
  | _, _ => []

/-- The Cross Detector as the specification words it: one ascending scan over
positions 1 to `N-1`, emitting the events of `specCrossAt` at each position. -/
def detectCrossesSpec (rsi_series : List (Option ℚ))
    (overbought oversold : ℚ) : List CrossEvent :=
  (List.range' 1 (rsi_series.length - 1)).flatMap
    (specCrossAt rsi_series overbought oversold)

/-- One element of the `cycles` list, keys `'start'`, `'end'`, `'cross_type'`,
`'cross_rsi'` (`end` is a Lean keyword, embedded as `endIdx`). -/
structure Cycle where
  start : ℕ
  endIdx : ℕ
  cross_type : CrossKind
  cross_rsi : ℚ
deriving DecidableEq, Inhabited

/-- Embedding of `create_cycles` (app.py lines 42–57): each cross opens a cycle that ends one
position before the next cross; the last cycle ends at `data_length - 1`. -/
def create_cycles : List CrossEvent → ℕ → List Cycle
  | [], _ => []
  | [c], data_length => [⟨c.index, data_length - 1, c.kind, c.rsiValue⟩]
  | c :: c' :: rest, data_length =>
      ⟨c.index, c'.index - 1, c.kind, c.rsiValue⟩ ::
        create_cycles (c' :: rest) data_length

/-- Embedding of `calculate_ohlc_average` (app.py lines 38–40). -/
def calculate_ohlc_average (row : PriceBar) : ℚ :=
  (row.Open + row.High + row.Low + row.Close) / 4

/-- The per-cycle comparison of app.py lines 275–276 (the same comparison
colors the chart at line 76): the raw close at the cycle's end is strictly
above the OHLC average at the cycle's opening cross. -/
def cycle_is_green (data : List PriceBar) (cycle : Cycle) : Bool :=
  decide (calculate_ohlc_average (data.getD cycle.start default) <
    (data.getD cycle.endIdx default).Close)

/-- Embedding of `green_cycles` (app.py line 275): `sum(1 for ... if close > avg)`. -/
def green_cycles (data : List PriceBar) (cycles : List Cycle) : ℕ :=
  (cycles.filter (cycle_is_green data)).length

/-- Embedding of `red_cycles` (app.py line 280): `len(cycles) - green_cycles`. -/
def red_cycles (data : List PriceBar) (cycles : List Cycle) : ℕ :=
  cycles.length - green_cycles data cycles

/-! ### Helper lemmas about the cross detector -/

/-- The two crossing conditions can never hold at the same position: together
they would force `prev ≤ overbought < curr < oversold ≤ prev`.  Hence the
`if`/`elif` of the source emits at each position exactly what the
specification's two independent rules emit. -/
theorem crossAt_eq_specCrossAt (rsi_series : List (Option ℚ))
    (overbought oversold : ℚ) (i : ℕ) :
    crossAt rsi_series overbought oversold i =
      specCrossAt rsi_series overbought oversold i := by
  unfold crossAt specCrossAt
  cases hp : rsi_series.getD (i - 1) none with
  | none => rfl
  | some prev_rsi =>
    cases hc : rsi_series.getD i none with
    | none => rfl
    | some current_rsi =>
      by_cases h1 : prev_rsi ≤ overbought ∧ overbought < current_rsi
      · by_cases h2 : oversold ≤ prev_rsi ∧ current_rsi < oversold
        · exact absurd (lt_trans h1.2 (lt_of_lt_of_le h2.2 (le_trans h2.1 h1.1)))
            (lt_irrefl _)
        · simp [h1, h2]
      · by_cases h2 : oversold ≤ prev_rsi ∧ current_rsi < oversold
        · simp [h1, h2]
        · simp [h1, h2]

/-- The whole scan of `detect_rsi_crosses` coincides with the specification's
scan, for any thresholds whatsoever. -/
theorem detect_rsi_crosses_eq_spec (rsi_series : List (Option ℚ))
    (overbought oversold : ℚ) :
    detect_rsi_crosses rsi_series overbought oversold =
      detectCrossesSpec rsi_series overbought oversold := by
  unfold detect_rsi_crosses detectCrossesSpec
  rw [funext (crossAt_eq_specCrossAt rsi_series overbought oversold)]

/-- Every event emitted at scan position `i` carries index `i`. -/
theorem crossAt_index (rsi_series : List (Option ℚ)) (overbought oversold : ℚ)
    (i : ℕ) (e : CrossEvent)
    (he : e ∈ crossAt rsi_series overbought oversold i) : e.index = i := by
  unfold crossAt at he
  cases hp : rsi_series.getD (i - 1) none <;> rw [hp] at he
  · simp at he
  · cases hc : rsi_series.getD i none <;> rw [hc] at he
    · simp at he
    · dsimp only at he
      split_ifs at he <;> simp_all

/-- The scan emits at most one event per position. -/
theorem crossAt_cases (rsi_series : List (Option ℚ)) (overbought oversold : ℚ)
    (i : ℕ) :
    crossAt rsi_series overbought oversold i = [] ∨
      ∃ e, crossAt rsi_series overbought oversold i = [e] := by
  unfold crossAt
  cases rsi_series.getD (i - 1) none
  · exact Or.inl rfl
  · cases rsi_series.getD i none
    · exact Or.inl rfl
    · dsimp only
      split_ifs
      · exact Or.inr ⟨_, rfl⟩
      · exact Or.inr ⟨_, rfl⟩
      · exact Or.inl rfl

/-- Scanning an index list that is strictly increasing produces events with
strictly increasing indices. -/
theorem flatMap_crossAt_pairwise (rsi_series : List (Option ℚ))
    (overbought oversold : ℚ) :
    ∀ L : List ℕ, L.Pairwise (· < ·) →
      (L.flatMap (crossAt rsi_series overbought oversold)).Pairwise
        (fun a b => a.index < b.index) := by
  intro L
  induction L with
  | nil => intro _; simp
  | cons a L ih =>
    intro hp
    rw [List.pairwise_cons] at hp
    obtain ⟨ha, hL⟩ := hp
    rw [List.flatMap_cons, List.pairwise_append]
    refine ⟨?_, ih hL, ?_⟩
    · rcases crossAt_cases rsi_series overbought oversold a with h | ⟨e, h⟩ <;>
        simp [h]
    · intro x hx y hy
      rw [List.mem_flatMap] at hy
      obtain ⟨b, hb, hyb⟩ := hy
      rw [crossAt_index rsi_series overbought oversold a x hx,
        crossAt_index rsi_series overbought oversold b y hyb]
      exact ha b hb

/-- Indices of detected crosses are strictly increasing along the result. -/
theorem detect_rsi_crosses_pairwise (rsi_series : List (Option ℚ))
    (overbought oversold : ℚ) :
    (detect_rsi_crosses rsi_series overbought oversold).Pairwise
      (fun a b => a.index < b.index) :=
  flatMap_crossAt_pairwise rsi_series overbought oversold _
    (List.pairwise_lt_range' 1 (rsi_series.length - 1))

/-! ### Helper lemmas about the cycle builder -/

/-- One cycle per cross, always. -/
theorem create_cycles_length (crosses : List CrossEvent) (data_length : ℕ) :
    (create_cycles crosses data_length).length = crosses.length := by
  induction crosses with
  | nil => rfl
  | cons c rest ih =>
    cases rest with
    | nil => rfl
    | cons c' rest' => simpa [create_cycles] using ih

/-- Closed form of the `k`-th produced cycle: it starts at cross `k`'s index and
ends just before cross `k+1`'s index, or at `data_length - 1` for the last one. -/
theorem create_cycles_getElem? (crosses : List CrossEvent) (data_length k : ℕ) :
    (create_cycles crosses data_length)[k]? =
      match crosses[k]?, crosses[k + 1]? with
      | some c, some c' => some ⟨c.index, c'.index - 1, c.kind, c.rsiValue⟩
      | some c, none => some ⟨c.index, data_length - 1, c.kind, c.rsiValue⟩
      | none, _ => none := by
  induction crosses generalizing k with
  | nil => simp [create_cycles]
  | cons c rest ih =>
    cases rest with
    | nil =>
      cases k with
      | zero => simp [create_cycles]
      | succ k => simp [create_cycles]
    | cons c' rest' =>
      cases k with
      | zero => simp [create_cycles]
      | succ k => simpa [create_cycles] using ih k

/-- Variant of `create_cycles_getElem?` for positions inside the list. -/
theorem create_cycles_getD (crosses : List CrossEvent) (data_length k : ℕ)
    (hk : k < crosses.length) :
    (create_cycles crosses data_length).getD k default =
      if k + 1 < crosses.length then
        ⟨(crosses.getD k default).index, (crosses.getD (k + 1) default).index - 1,
          (crosses.getD k default).kind, (crosses.getD k default).rsiValue⟩
      else
        ⟨(crosses.getD k default).index, data_length - 1,
          (crosses.getD k default).kind, (crosses.getD k default).rsiValue⟩ := by
  rw [List.getD_eq_getElem?_getD, create_cycles_getElem? crosses data_length k]
  by_cases h : k + 1 < crosses.length
  · rw [List.getElem?_eq_getElem hk, List.getElem?_eq_getElem h]
    simp [h, List.getD_eq_getElem?_getD, List.getElem?_eq_getElem, hk]
  · rw [List.getElem?_eq_getElem hk, List.getElem?_eq_none (by omega)]
    simp [h, List.getD_eq_getElem?_getD, List.getElem?_eq_getElem, hk]

/-! ### Helper lemmas about the RSI engine -/

theorem length_gainList (prices : List ℚ) :
    (gainList prices).length = prices.length := by
  simp [gainList, diff]

theorem length_lossList (prices : List ℚ) :
    (lossList prices).length = prices.length := by
  simp [lossList, diff]

theorem length_rollingMean (xs : List ℚ) (w : ℕ) :
    (rollingMean xs w).length = xs.length := by
  simp [rollingMean]

theorem length_calculate_rsi (prices : List ℚ) (period : ℕ) :
    (calculate_rsi prices period).length = prices.length := by
  simp [calculate_rsi]

theorem getD_map_range {α : Type} (f : ℕ → α) (n i : ℕ) (d : α) (h : i < n) :
    ((List.range n).map f).getD i d = f i := by
  rw [List.getD_eq_getElem?_getD, List.getElem?_map, List.getElem?_range h]
  rfl

theorem getD_map_range_ge {α : Type} (f : ℕ → α) (n i : ℕ) (d : α) (h : n ≤ i) :
    ((List.range n).map f).getD i d = d := by
  rw [List.getD_eq_getElem?_getD, List.getElem?_eq_none (by simpa using h)]
  rfl

theorem calculate_rsi_getD (prices : List ℚ) (period i : ℕ)
    (h : i < prices.length) :
    (calculate_rsi prices period).getD i none = rsiStep prices period i :=
  getD_map_range _ _ _ _ h

theorem calculate_rsi_getD_ge (prices : List ℚ) (period i : ℕ)
    (h : prices.length ≤ i) :
    (calculate_rsi prices period).getD i none = none :=
  getD_map_range_ge _ _ _ _ h

theorem rollingMean_getD (xs : List ℚ) (w i : ℕ) (h : i < xs.length) :
    (rollingMean xs w).getD i none = rollingMeanAt xs w i :=
  getD_map_range _ _ _ _ h

theorem rollingMean_getD_ge (xs : List ℚ) (w i : ℕ) (h : xs.length ≤ i) :
    (rollingMean xs w).getD i none = none :=
  getD_map_range_ge _ _ _ _ h

/-- Gains are the positive deltas or 0: never negative. -/
theorem gainList_nonneg (prices : List ℚ) : ∀ x ∈ gainList prices, 0 ≤ x := by
  intro x hx
  rw [gainList, List.mem_map] at hx
  obtain ⟨d, _, rfl⟩ := hx
  cases d with
  | none => exact le_refl 0
  | some v =>
    dsimp only
    split_ifs with h
    · exact le_of_lt h
    · exact le_refl 0

/-- Losses are magnitudes of negative deltas or 0: never negative. -/
theorem lossList_nonneg (prices : List ℚ) : ∀ x ∈ lossList prices, 0 ≤ x := by
  intro x hx
  rw [lossList, List.mem_map] at hx
  obtain ⟨d, _, rfl⟩ := hx
  cases d with
  | none => exact le_refl 0
  | some v =>
    dsimp only
    split_ifs with h
    · linarith
    · exact le_refl 0

/-- A rolling mean of a nonnegative series is nonnegative wherever defined. -/
theorem rollingMeanAt_nonneg (xs : List ℚ) (hxs : ∀ x ∈ xs, 0 ≤ x) (w i : ℕ)
    (g : ℚ) (hg : rollingMeanAt xs w i = some g) : 0 ≤ g := by
  rw [rollingMeanAt] at hg
  split_ifs at hg
  rw [Option.some.injEq] at hg
  subst hg
  refine div_nonneg (List.sum_nonneg ?_) (by positivity)
  intro x hx
  exact hxs x (List.mem_of_mem_drop (List.mem_of_mem_take hx))

/-- Wherever the RSI formula produces a value from nonnegative average gain and
loss, that value lies in `[0, 100]`. -/
theorem rsiAt_bounds (g l : ℚ) (hg : 0 ≤ g) (hl : 0 ≤ l) (x : ℚ)
    (hx : rsiAt g l = some x) : 0 ≤ x ∧ x ≤ 100 := by
  rw [rsiAt] at hx
  split_ifs at hx with h1 h2
  · rw [Option.some.injEq] at hx
    subst hx
    norm_num
  · rw [Option.some.injEq] at hx
    subst hx
    have hlpos : 0 < l := lt_of_le_of_ne hl (Ne.symm h1)
    have hr : 0 ≤ g / l := div_nonneg hg hl
    have h1r : (1 : ℚ) ≤ 1 + g / l := by linarith
    have hq1 : 100 / (1 + g / l) ≤ 100 := div_le_self (by norm_num) h1r
    have hq0 : (0 : ℚ) ≤ 100 / (1 + g / l) := div_nonneg (by norm_num) (by linarith)
    constructor <;> linarith

/-- Inside the series, the RSI is undefined while the rolling window has not
filled, i.e. strictly before position `period - 1`. -/
theorem rsiStep_eq_none (prices : List ℚ) (period i : ℕ)
    (hi : i < prices.length) (h : i + 1 < period) :
    rsiStep prices period i = none := by
  rw [rsiStep,
    rollingMean_getD _ _ _ (by rw [length_gainList]; exact hi),
    rollingMean_getD _ _ _ (by rw [length_lossList]; exact hi),
    rollingMeanAt, if_pos h, rollingMeanAt, if_pos h]

/-! ### The claims -/

/-- C1: for `oversoldLevel < overboughtLevel`, the cross detector — scanning
`i` from 1 to `N-1`, skipping undefined neighbours — emits an `Overbought`
event at `i` with `rsiValue = curr` exactly when `prev ≤ overboughtLevel` and
`curr > overboughtLevel`, and an `Oversold` event exactly when
`prev ≥ oversoldLevel` and `curr < oversoldLevel`, appending events in
ascending index order: the source scan equals the specification's scan. -/
theorem c1_cross_detector_matches_spec (rsi_series : List (Option ℚ))
    (overbought oversold : ℚ) (h : oversold < overbought) :
    detect_rsi_crosses rsi_series overbought oversold =
      detectCrossesSpec rsi_series overbought oversold :=
  detect_rsi_crosses_eq_spec rsi_series overbought oversold

theorem c1_witness :
    (30 : ℚ) < 70 ∧
    detect_rsi_crosses [some 65, some 72, some 68, some 28, some 35] 70 30 =
      detectCrossesSpec [some 65, some 72, some 68, some 28, some 35] 70 30 :=
  ⟨by norm_num,
    c1_cross_detector_matches_spec [some 65, some 72, some 68, some 28, some 35]
      70 30 (by norm_num)⟩

/-- C4 counterexample: on the RSI series `[65, 72, 68, 28, 35]` with
`overbought = 70`, `oversold = 30` and series length 5, the two produced
cycles span `[1,2]` and `[3,4]` — not `[0,2]` and `[3,4]` as claimed: the
first cycle starts at the cross index 1, not at 0. -/
theorem c4_counterexample :
    (create_cycles
        (detect_rsi_crosses [some 65, some 72, some 68, some 28, some 35] 70 30)
        5).map (fun c => (c.start, c.endIdx)) = [(1, 2), (3, 4)] ∧
    (create_cycles
        (detect_rsi_crosses [some 65, some 72, some 68, some 28, some 35] 70 30)
        5).map (fun c => (c.start, c.endIdx)) ≠ [(0, 2), (3, 4)] := by
  decide

/-- C4 (amended): on the RSI series `[65, 72, 68, 28, 35]` with
`overbought = 70` and `oversold = 30`, the detector emits exactly one
`Overbought` event at index 1 and one `Oversold` event at index 3, and the
cycle builder yields exactly two cycles spanning `[1,2]` and `[3,4]`. -/
theorem c4_scenario_corrected :
    detect_rsi_crosses [some 65, some 72, some 68, some 28, some 35] 70 30 =
      [⟨1, CrossKind.overbought, 72⟩, ⟨3, CrossKind.oversold, 28⟩] ∧
    (create_cycles
        (detect_rsi_crosses [some 65, some 72, some 68, some 28, some 35] 70 30)
        5).map (fun c => (c.start, c.endIdx)) = [(1, 2), (3, 4)] := by
  decide

/-- C6: for `oversoldLevel < overboughtLevel` the detector never emits two
events at the same index — any two emitted events with equal indices are the
same event — and the emitted indices are strictly increasing along the
result. -/
theorem c6_detector_event_indices (rsi_series : List (Option ℚ))
    (overbought oversold : ℚ) (h : oversold < overbought) :
    (detect_rsi_crosses rsi_series overbought oversold).Pairwise
      (fun a b => a.index < b.index) ∧
    ∀ e₁ ∈ detect_rsi_crosses rsi_series overbought oversold,
      ∀ e₂ ∈ detect_rsi_crosses rsi_series overbought oversold,
        e₁.index = e₂.index → e₁ = e₂ := by
  refine ⟨detect_rsi_crosses_pairwise rsi_series overbought oversold, ?_⟩
  intro e₁ he₁ e₂ he₂ hidx
  have hpw := detect_rsi_crosses_pairwise rsi_series overbought oversold
  rw [List.pairwise_iff_get] at hpw
  obtain ⟨i, hi⟩ := List.mem_iff_get.mp he₁
  obtain ⟨j, hj⟩ := List.mem_iff_get.mp he₂
  rcases lt_trichotomy i j with hij | hij | hij
  · have := hpw i j hij
    rw [hi, hj, hidx] at this
    exact absurd this (lt_irrefl _)
  · rw [← hi, ← hj, hij]
  · have := hpw j i hij
    rw [hi, hj, hidx] at this
    exact absurd this (lt_irrefl _)

theorem c6_witness :
    (30 : ℚ) < 70 ∧
    ((detect_rsi_crosses [some 65, some 72, some 68, some 28, some 35] 70
        30).Pairwise (fun a b => a.index < b.index) ∧
      ∀ e₁ ∈ detect_rsi_crosses [some 65, some 72, some 68, some 28, some 35] 70 30,
        ∀ e₂ ∈ detect_rsi_crosses [some 65, some 72, some 68, some 28, some 35] 70 30,
          e₁.index = e₂.index → e₁ = e₂) :=
  ⟨by norm_num,
    c6_detector_event_indices [some 65, some 72, some 68, some 28, some 35] 70 30
      (by norm_num)⟩

/-- C8 counterexample: with inverted thresholds `overbought = 30 ≤ 70 =
oversold`, the detector does not fail — it runs the scan and returns a
(here non-empty) cross sequence. -/
theorem c8_counterexample :
    (30 : ℚ) ≤ 70 ∧
    detect_rsi_crosses [some 20, some 35] 30 70 =
      [⟨1, CrossKind.overbought, 35⟩] := by
  constructor
  · norm_num
  · decide

/-- C8 (amended): the cross detector performs no threshold validation — even
with `overboughtLevel ≤ oversoldLevel` it raises no error and returns exactly
the cross sequence of the scan rules (which can be non-empty). -/
theorem c8_no_threshold_validation (rsi_series : List (Option ℚ))
    (overbought oversold : ℚ) (h : overbought ≤ oversold) :
    detect_rsi_crosses rsi_series overbought oversold =
      detectCrossesSpec rsi_series overbought oversold :=
  detect_rsi_crosses_eq_spec rsi_series overbought oversold

theorem c8_witness :
    (30 : ℚ) ≤ 70 ∧
    detect_rsi_crosses [some 20, some 35] 30 70 =
      detectCrossesSpec [some 20, some 35] 30 70 :=
  ⟨by norm_num, c8_no_threshold_validation [some 20, some 35] 30 70 (by norm_num)⟩

/-- C9 counterexample: on an empty cross sequence `create_cycles` does not
fail — it returns the empty cycle sequence. -/
theorem c9_counterexample : create_cycles [] 10 = [] := rfl

/-- C9 (amended): the cycle builder raises no error on an empty cross
sequence; it returns the empty cycle sequence for every series length (the
caller in `main` returns early on zero crosses before invoking it). -/
theorem c9_empty_crosses_empty_cycles (data_length : ℕ) :
    create_cycles [] data_length = [] := rfl

/-- C2: for a non-empty cross sequence with strictly increasing indices and a
series length `N` beyond the last cross index, the cycle builder produces one
cycle per cross, in order; cycle `k` starts at cross `k`'s index (copying its
kind and RSI value) and ends at cross `k+1`'s index minus 1 (or `N-1` for the
last cycle); hence every cycle has `start ≤ end`, consecutive cycles are
contiguous, and the last cycle ends at `N-1`. -/
theorem c2_cycle_builder_invariants (crosses : List CrossEvent) (N : ℕ)
    (hne : crosses ≠ [])
    (hinc : ∀ k, k + 1 < crosses.length →
      (crosses.getD k default).index < (crosses.getD (k + 1) default).index)
    (hN : (crosses.getLast hne).index < N) :
    (create_cycles crosses N).length = crosses.length ∧
    (∀ k, k < crosses.length →
      ((create_cycles crosses N).getD k default).start =
          (crosses.getD k default).index ∧
        ((create_cycles crosses N).getD k default).cross_type =
          (crosses.getD k default).kind ∧
        ((create_cycles crosses N).getD k default).cross_rsi =
          (crosses.getD k default).rsiValue) ∧
    (∀ k, k + 1 < crosses.length →
      ((create_cycles crosses N).getD k default).endIdx =
        (crosses.getD (k + 1) default).index - 1) ∧
    ((create_cycles crosses N).getD (crosses.length - 1) default).endIdx =
      N - 1 ∧
    (∀ k, k < crosses.length →
      ((create_cycles crosses N).getD k default).start ≤
        ((create_cycles crosses N).getD k default).endIdx) ∧
    (∀ k, k + 1 < crosses.length →
      ((create_cycles crosses N).getD k default).endIdx + 1 =
        ((create_cycles crosses N).getD (k + 1) default).start) := by
  have hlen0 : 0 < crosses.length := List.length_pos.mpr hne
  have hlast : (crosses.getLast hne).index =
      (crosses.getD (crosses.length - 1) default).index := by
    rw [List.getLast_eq_getElem, List.getD_eq_getElem?_getD,
      List.getElem?_eq_getElem (by omega)]
    rfl
  refine ⟨create_cycles_length crosses N, ?_, ?_, ?_, ?_, ?_⟩
  · intro k hk
    rw [create_cycles_getD crosses N k hk]
    split_ifs <;> exact ⟨rfl, rfl, rfl⟩
  · intro k hk
    rw [create_cycles_getD crosses N k (by omega), if_pos hk]
  · rw [create_cycles_getD crosses N (crosses.length - 1) (by omega),
      if_neg (by omega)]
  · intro k hk
    rw [create_cycles_getD crosses N k hk]
    by_cases h : k + 1 < crosses.length
    · rw [if_pos h]
      have := hinc k h
      dsimp only
      omega
    · rw [if_neg h]
      have hk' : k = crosses.length - 1 := by omega
      have hidx : (crosses.getD k default).index < N := by
        rw [hk', ← hlast]
        exact hN
      dsimp only
      omega
  · intro k hk
    rw [create_cycles_getD crosses N k (by omega), if_pos hk,
      create_cycles_getD crosses N (k + 1) hk]
    have := hinc k hk
    by_cases h : k + 1 + 1 < crosses.length
    · rw [if_pos h]
      dsimp only
      omega
    · rw [if_neg h]
      dsimp only
      omega

theorem c2_witness :
    (create_cycles [⟨1, CrossKind.overbought, 72⟩, ⟨3, CrossKind.oversold, 28⟩]
        5).length =
      ([⟨1, CrossKind.overbought, 72⟩,
        ⟨3, CrossKind.oversold, 28⟩] : List CrossEvent).length ∧
    (∀ k,
      k < ([⟨1, CrossKind.overbought, 72⟩,
        ⟨3, CrossKind.oversold, 28⟩] : List CrossEvent).length →
      ((create_cycles [⟨1, CrossKind.overbought, 72⟩,
          ⟨3, CrossKind.oversold, 28⟩] 5).getD k default).start =
          (([⟨1, CrossKind.overbought, 72⟩,
            ⟨3, CrossKind.oversold, 28⟩] : List CrossEvent).getD k
            default).index ∧
        ((create_cycles [⟨1, CrossKind.overbought, 72⟩,
          ⟨3, CrossKind.oversold, 28⟩] 5).getD k default).cross_type =
          (([⟨1, CrossKind.overbought, 72⟩,
            ⟨3, CrossKind.oversold, 28⟩] : List CrossEvent).getD k
            default).kind ∧
        ((create_cycles [⟨1, CrossKind.overbought, 72⟩,
          ⟨3, CrossKind.oversold, 28⟩] 5).getD k default).cross_rsi =
          (([⟨1, CrossKind.overbought, 72⟩,
            ⟨3, CrossKind.oversold, 28⟩] : List CrossEvent).getD k
            default).rsiValue) ∧
    (∀ k,
      k + 1 < ([⟨1, CrossKind.overbought, 72⟩,
        ⟨3, CrossKind.oversold, 28⟩] : List CrossEvent).length →
      ((create_cycles [⟨1, CrossKind.overbought, 72⟩,
          ⟨3, CrossKind.oversold, 28⟩] 5).getD k default).endIdx =
        (([⟨1, CrossKind.overbought, 72⟩,
          ⟨3, CrossKind.oversold, 28⟩] : List CrossEvent).getD (k + 1)
          default).index - 1) ∧
    ((create_cycles [⟨1, CrossKind.overbought, 72⟩,
        ⟨3, CrossKind.oversold, 28⟩] 5).getD
        (([⟨1, CrossKind.overbought, 72⟩,
          ⟨3, CrossKind.oversold, 28⟩] : List CrossEvent).length - 1)
        default).endIdx = 5 - 1 ∧
    (∀ k,
      k < ([⟨1, CrossKind.overbought, 72⟩,
        ⟨3, CrossKind.oversold, 28⟩] : List CrossEvent).length →
      ((create_cycles [⟨1, CrossKind.overbought, 72⟩,
          ⟨3, CrossKind.oversold, 28⟩] 5).getD k default).start ≤
        ((create_cycles [⟨1, CrossKind.overbought, 72⟩,
          ⟨3, CrossKind.oversold, 28⟩] 5).getD k default).endIdx) ∧
    (∀ k,
      k + 1 < ([⟨1, CrossKind.overbought, 72⟩,
        ⟨3, CrossKind.oversold, 28⟩] : List CrossEvent).length →
      ((create_cycles [⟨1, CrossKind.overbought, 72⟩,
          ⟨3, CrossKind.oversold, 28⟩] 5).getD k default).endIdx + 1 =
        ((create_cycles [⟨1, CrossKind.overbought, 72⟩,
          ⟨3, CrossKind.oversold, 28⟩] 5).getD (k + 1) default).start) :=
  c2_cycle_builder_invariants
    [⟨1, CrossKind.overbought, 72⟩, ⟨3, CrossKind.oversold, 28⟩] 5
    (by decide)
    (by
      intro k hk
      have hk0 : k = 0 := by
        simp only [List.length_cons, List.length_nil] at hk
        omega
      subst hk0
      decide)
    (by decide)

/-- C3: a cycle is classified green (Positive) exactly when the raw close at
its end index is strictly greater than the OHLC average at its start index; an
exact tie classifies red (Negative); and the green and red counts always sum
to the number of cycles. -/
theorem c3_classification_rule (data : List PriceBar) (cycles : List Cycle)
    (cycle : Cycle) :
    (cycle_is_green data cycle = true ↔
      calculate_ohlc_average (data.getD cycle.start default) <
        (data.getD cycle.endIdx default).Close) ∧
    ((data.getD cycle.endIdx default).Close =
        calculate_ohlc_average (data.getD cycle.start default) →
      cycle_is_green data cycle = false) ∧
    green_cycles data cycles + red_cycles data cycles = cycles.length := by
  refine ⟨by simp [cycle_is_green], ?_, ?_⟩
  · intro h
    simp only [cycle_is_green, decide_eq_false_iff_not, not_lt]
    exact le_of_eq h
  · have hle : green_cycles data cycles ≤ cycles.length :=
      List.length_filter_le _ _
    rw [red_cycles]
    omega

theorem c3_witness :
    (cycle_is_green [⟨10, 14, 8, 12⟩] ⟨0, 0, CrossKind.overbought, 72⟩ = true ↔
      calculate_ohlc_average
          (([⟨10, 14, 8, 12⟩] : List PriceBar).getD
            (⟨0, 0, CrossKind.overbought, 72⟩ : Cycle).start default) <
        (([⟨10, 14, 8, 12⟩] : List PriceBar).getD
          (⟨0, 0, CrossKind.overbought, 72⟩ : Cycle).endIdx default).Close) ∧
    ((([⟨10, 14, 8, 12⟩] : List PriceBar).getD
          (⟨0, 0, CrossKind.overbought, 72⟩ : Cycle).endIdx default).Close =
        calculate_ohlc_average
          (([⟨10, 14, 8, 12⟩] : List PriceBar).getD
            (⟨0, 0, CrossKind.overbought, 72⟩ : Cycle).start default) →
      cycle_is_green [⟨10, 14, 8, 12⟩] ⟨0, 0, CrossKind.overbought, 72⟩ =
        false) ∧
    green_cycles [⟨10, 14, 8, 12⟩] [⟨0, 0, CrossKind.overbought, 72⟩] +
        red_cycles [⟨10, 14, 8, 12⟩] [⟨0, 0, CrossKind.overbought, 72⟩] =
      ([⟨0, 0, CrossKind.overbought, 72⟩] : List Cycle).length :=
  c3_classification_rule [⟨10, 14, 8, 12⟩] [⟨0, 0, CrossKind.overbought, 72⟩]
    ⟨0, 0, CrossKind.overbought, 72⟩

/-- C5 counterexample: with `prices = [1, 2, 3]` and `period = 2` (a valid
configuration, `0 < 2 < 3`), the RSI at index `1 < period` is already defined
(and equals 100): the initial `NaN` delta is zero-filled by `where`, so the
rolling window fills at index `period - 1`, not at `period`. -/
theorem c5_counterexample :
    ((0 : ℕ) < 2 ∧ (2 : ℕ) < 3 ∧ (1 : ℕ) < 2) ∧
    (calculate_rsi [(1 : ℚ), 2, 3] 2).getD 1 none = some 100 := by
  refine ⟨by norm_num, ?_⟩
  norm_num [calculate_rsi, rsiStep, rollingMean, rollingMeanAt, gainList,
    lossList, diff, rsiAt, List.range_succ]

/-- C5 (amended): for `0 < period < N` the RSI engine returns a series of
length `N` whose first `period - 1` entries are undefined (the entry at index
`period - 1` can already be defined, because the initial `NaN` delta is
treated as zero gain and loss), whose defined entries all lie in `[0, 100]`,
and whose value is exactly 100 wherever the trailing average loss is 0 and the
trailing average gain is nonzero. -/
theorem c5_rsi_series_corrected (prices : List ℚ) (period : ℕ)
    (hpos : 0 < period) (hlt : period < prices.length) :
    (calculate_rsi prices period).length = prices.length ∧
    (∀ i, i + 1 < period → (calculate_rsi prices period).getD i none = none) ∧
    (∀ i x, (calculate_rsi prices period).getD i none = some x →
      0 ≤ x ∧ x ≤ 100) ∧
    (∀ i g, (rollingMean (gainList prices) period).getD i none = some g →
      (rollingMean (lossList prices) period).getD i none = some 0 → g ≠ 0 →
      (calculate_rsi prices period).getD i none = some 100) := by
  refine ⟨length_calculate_rsi prices period, ?_, ?_, ?_⟩
  · intro i hi
    by_cases hlen : i < prices.length
    · rw [calculate_rsi_getD _ _ _ hlen, rsiStep_eq_none _ _ _ hlen hi]
    · exact calculate_rsi_getD_ge _ _ _ (le_of_not_lt hlen)
  · intro i x hx
    by_cases hlen : i < prices.length
    · rw [calculate_rsi_getD _ _ _ hlen, rsiStep] at hx
      cases hg : (rollingMean (gainList prices) period).getD i none with
      | none =>
        rw [hg] at hx
        exact absurd hx (by simp)
      | some g =>
        cases hl : (rollingMean (lossList prices) period).getD i none with
        | none =>
          rw [hg, hl] at hx
          exact absurd hx (by simp)
        | some l =>
          rw [hg, hl] at hx
          dsimp only at hx
          have hgain : 0 ≤ g := by
            refine rollingMeanAt_nonneg _ (gainList_nonneg prices) period i g ?_
            rw [← rollingMean_getD _ _ _ (by rw [length_gainList]; exact hlen)]
            exact hg
          have hloss : 0 ≤ l := by
            refine rollingMeanAt_nonneg _ (lossList_nonneg prices) period i l ?_
            rw [← rollingMean_getD _ _ _ (by rw [length_lossList]; exact hlen)]
            exact hl
          exact rsiAt_bounds g l hgain hloss x hx
    · rw [calculate_rsi_getD_ge _ _ _ (le_of_not_lt hlen)] at hx
      exact absurd hx (by simp)
  · intro i g hg hl hgne
    have hlen : i < prices.length := by
      by_contra hge
      rw [rollingMean_getD_ge _ _ _ (by rw [length_gainList]; omega)] at hg
      exact absurd hg (by simp)
    rw [calculate_rsi_getD _ _ _ hlen, rsiStep, hg, hl]
    dsimp only
    rw [rsiAt, if_pos rfl, if_neg hgne]

theorem c5_witness :
    ((0 : ℕ) < 2 ∧ (2 : ℕ) < ([(1 : ℚ), 2, 3] : List ℚ).length) ∧
    ((calculate_rsi [(1 : ℚ), 2, 3] 2).length =
        ([(1 : ℚ), 2, 3] : List ℚ).length ∧
      (∀ i, i + 1 < 2 → (calculate_rsi [(1 : ℚ), 2, 3] 2).getD i none = none) ∧
      (∀ i x, (calculate_rsi [(1 : ℚ), 2, 3] 2).getD i none = some x →
        0 ≤ x ∧ x ≤ 100) ∧
      (∀ i g, (rollingMean (gainList [(1 : ℚ), 2, 3]) 2).getD i none = some g →
        (rollingMean (lossList [(1 : ℚ), 2, 3]) 2).getD i none = some 0 →
        g ≠ 0 →
        (calculate_rsi [(1 : ℚ), 2, 3] 2).getD i none = some 100)) :=
  ⟨⟨by norm_num, by norm_num⟩,
    c5_rsi_series_corrected [(1 : ℚ), 2, 3] 2 (by norm_num) (by norm_num)⟩

/-- C7 counterexample: with `prices = [1, 2]` and `period = 5 ≥ 2`, the RSI
engine raises no `InvalidParameter` error — it returns the all-undefined
series `[none, none]`. -/
theorem c7_counterexample :
    (([(1 : ℚ), 2] : List ℚ).length ≤ 5) ∧
    calculate_rsi [(1 : ℚ), 2] 5 = [none, none] := by
  decide

/-- C7 (amended): the RSI engine performs no parameter validation.  For every
`period ≥` series length it raises no error and returns a series of the
series' length whose first `N - 1` entries are all undefined. -/
theorem c7_no_parameter_validation (prices : List ℚ) (period : ℕ)
    (h : prices.length ≤ period) :
    (calculate_rsi prices period).length = prices.length ∧
    ∀ i, i + 1 < prices.length →
      (calculate_rsi prices period).getD i none = none := by
  refine ⟨length_calculate_rsi prices period, ?_⟩
  intro i hi
  rw [calculate_rsi_getD _ _ _ (by omega), rsiStep_eq_none _ _ _ (by omega)
    (by omega)]

theorem c7_witness :
    (([(1 : ℚ), 2] : List ℚ).length ≤ 5) ∧
    ((calculate_rsi [(1 : ℚ), 2] 5).length = ([(1 : ℚ), 2] : List ℚ).length ∧
      ∀ i, i + 1 < ([(1 : ℚ), 2] : List ℚ).length →
        (calculate_rsi [(1 : ℚ), 2] 5).getD i none = none) :=
  ⟨by norm_num, c7_no_parameter_validation [(1 : ℚ), 2] 5 (by norm_num)⟩

/-- C10 counterexample: with `prices = [1, 2]` (length 2 ≥ 1) and
`period = 2 ≥ 2`, not every RSI entry is undefined — the entry at index 1 is
defined and equals 100, because a window of exactly `period` observations
fills at the last position. -/
theorem c10_counterexample :
    ((1 : ℕ) ≤ 2 ∧ (2 : ℕ) ≤ 2) ∧
    (calculate_rsi [(1 : ℚ), 2] 2).getD 1 none = some 100 := by
  refine ⟨by norm_num, ?_⟩
  norm_num [calculate_rsi, rsiStep, rollingMean, rollingMeanAt, gainList,
    lossList, diff, rsiAt, List.range_succ]

/-- C10 (amended): for every series of length `N ≥ 1` and `period ≥ N`, the
RSI engine raises no error and returns a series of length `N` whose first
`N - 1` entries are undefined — every entry is undefined when
`period > N`, though the last entry may be defined when `period = N` — and
the cross detector applied to that series returns the empty sequence, so an
over-long period surfaces downstream as the "no crosses" outcome rather than
a parameter error. -/
theorem c10_overlong_period (prices : List ℚ) (period : ℕ)
    (overbought oversold : ℚ) (h1 : 1 ≤ prices.length)
    (h2 : prices.length ≤ period) :
    (calculate_rsi prices period).length = prices.length ∧
    (∀ i, i + 1 < prices.length →
      (calculate_rsi prices period).getD i none = none) ∧
    (prices.length < period →
      ∀ i, (calculate_rsi prices period).getD i none = none) ∧
    detect_rsi_crosses (calculate_rsi prices period) overbought oversold =
      [] := by
  refine ⟨length_calculate_rsi prices period, ?_, ?_, ?_⟩
  · intro i hi
    rw [calculate_rsi_getD _ _ _ (by omega), rsiStep_eq_none _ _ _ (by omega)
      (by omega)]
  · intro hgt i
    by_cases hlen : i < prices.length
    · rw [calculate_rsi_getD _ _ _ hlen, rsiStep_eq_none _ _ _ hlen (by omega)]
    · exact calculate_rsi_getD_ge _ _ _ (by omega)
  · rw [detect_rsi_crosses, List.flatMap_eq_nil_iff]
    intro i hi
    rw [length_calculate_rsi, List.mem_range'_1] at hi
    have hprev : (calculate_rsi prices period).getD (i - 1) none = none := by
      rw [calculate_rsi_getD _ _ _ (by omega),
        rsiStep_eq_none _ _ _ (by omega) (by omega)]
    rw [crossAt, hprev]

theorem c10_witness :
    ((1 : ℕ) ≤ ([(1 : ℚ), 2] : List ℚ).length ∧
      ([(1 : ℚ), 2] : List ℚ).length ≤ 3) ∧
    ((calculate_rsi [(1 : ℚ), 2] 3).length = ([(1 : ℚ), 2] : List ℚ).length ∧
      (∀ i, i + 1 < ([(1 : ℚ), 2] : List ℚ).length →
        (calculate_rsi [(1 : ℚ), 2] 3).getD i none = none) ∧
      (([(1 : ℚ), 2] : List ℚ).length < 3 →
        ∀ i, (calculate_rsi [(1 : ℚ), 2] 3).getD i none = none) ∧
      detect_rsi_crosses (calculate_rsi [(1 : ℚ), 2] 3) 70 30 = []) :=
  ⟨⟨by norm_num, by norm_num⟩,
    c10_overlong_period [(1 : ℚ), 2] 3 70 30 (by norm_num) (by norm_num)⟩

end RsiApp
